import Mathlib

/-!
Shallow embedding of `src/binance_crypto_downloader.py` (class
`BinanceCryptoDownloaderV2`) and proofs about it.

Modelling choices:

* A candle is the tuple returned by the exchange's OHLCV call; only the
  timestamp (`ts`, millisecond epoch, modelled as `Int`) is ever inspected by
  the code, the remaining fields are carried opaquely (as `Int` stand-ins for
  the numeric payload).
* The exchange client (`ccxt`) is an external collaborator.  Its
  `fetch_ohlcv(symbol, timeframe, since, limit=1000)` call is modelled as an
  oracle `Exch : Nat → Int → Except Unit (List Candle)`: the `Nat` is the
  index of the call (how many OHLCV requests have been issued so far for this
  symbol), the `Int` is the `since` cursor; the result is either a raised
  exception (`.error`) or a batch of candles (`.ok`).  The `parse8601` date
  conversion also belongs to the collaborator, so the embedded fetcher takes
  the already-converted millisecond timestamps `startTs : Int` and
  `endTs : Option Int` (`None` when no `end_date` was given).
* The `while True` pagination loop of `_download_with_retry` need not
  terminate for an arbitrary oracle, so it is embedded with explicit fuel;
  a result of `none` means the fuel ran out (an artifact of the embedding,
  never of the code).
* `time.sleep` calls and issued requests are recorded in an event trace so
  that backoff/pacing/request-count claims can be stated.  Durations are in
  tenths of a second (`sleep(0.2)` between batches, `sleep(2)` after an
  in-loop error) except the outer backoff which the code computes in whole
  seconds and is recorded as such.
* `pandas` is the output-writer collaborator: the `DataFrame` built from
  `all_ohlcv` keeps the candles as a list, `sort_values('time')` is a stable
  sort by timestamp (`List.mergeSort`), and `to_csv` is modelled as producing
  a written file `(filename, series)`.
-/

namespace GetData

/-- One OHLCV candle `[timestamp, open, high, low, close, volume]`.  The code
only ever reads index 0 (`ohlcv[-1][0]`); other fields are opaque payload. -/
structure Candle where
  ts : Int
  op : Int
  hi : Int
  lo : Int
  cl : Int
  vol : Int
deriving DecidableEq

instance : Inhabited Candle := ⟨⟨0, 0, 0, 0, 0, 0⟩⟩

/-- The exchange oracle: call index and `since` cursor to exception or batch. -/
abbrev Exch := Nat → Int → Except Unit (List Candle)

/-- Observable events of one symbol download: an OHLCV request (with its call
index and cursor), the 0.2 s pacing sleep, the 2 s in-loop error backoff, and
the outer-retry backoff of `secs` seconds. -/
inductive Ev where
  | fetch (k : Nat) (since : Int)
  | sleepPace
  | sleepErr
  | sleepOuter (secs : Nat)
deriving DecidableEq

/-- How one run of the `while True` loop in `_download_with_retry` ends:
normally (`break`), with the accumulated `all_ohlcv`, or by raising
`Exception("连续错误过多")`. -/
inductive LoopOut where
  | ok (acc : List Candle)
  | err
deriving DecidableEq

/-- Timestamp of the last candle of a batch (`ohlcv[-1][0]`); only used on
non-empty batches. -/
def lastTs (b : List Candle) : Int := (b.getLastD default).ts

/-- `limit=1000` of the `fetch_ohlcv` call, also the early-termination
threshold `len(ohlcv) < 1000`. -/
def batchLimit : Nat := 1000

/-- `if end_ts and since >= end_ts` (with `end_ts = None` when no end date). -/
def endReached (endTs : Option Int) (since : Int) : Bool :=
  match endTs with
  | some e => decide (since ≥ e)
  | none => false

/-- The `while True` pagination loop of `_download_with_retry`, with fuel.
State: `since` cursor, `endTs`, accumulated `all_ohlcv`, `consecutive_errors`,
and the global request-call index `k` fed to the oracle.  Returns the loop
outcome (`none` = out of fuel), the event trace, and the final call index. -/
def downloadLoop (E : Exch) : Nat → Int → Option Int → List Candle → Nat → Nat →
    Option LoopOut × List Ev × Nat
  | 0, _, _, _, _, k => (none, [], k)
  | fuel + 1, since, endTs, acc, cerr, k =>
    match E k since with
    | .error _ =>
      -- except branch: consecutive_errors += 1; if > 3 raise; else sleep(2)
      if cerr + 1 > 3 then (some .err, [.fetch k since], k + 1)
      else
        match downloadLoop E fuel since endTs acc (cerr + 1) (k + 1) with
        | (r, tr, k') => (r, .fetch k since :: .sleepErr :: tr, k')
    | .ok b =>
      if b = [] then (some (.ok acc), [.fetch k since], k + 1)
      else if endReached endTs (lastTs b + 1) then
        (some (.ok (acc ++ b)), [.fetch k since], k + 1)
      else if b.length < batchLimit then
        (some (.ok (acc ++ b)), [.fetch k since], k + 1)
      else
        match downloadLoop E fuel (lastTs b + 1) endTs (acc ++ b) 0 (k + 1) with
        | (r, tr, k') => (r, .fetch k since :: .sleepPace :: tr, k')

/-- `df.sort_values('time')`: stable ascending sort by timestamp. -/
def sortByTs (l : List Candle) : List Candle :=
  l.mergeSort (fun a b => a.ts ≤ b.ts)

/-- Outcome of one `_download_with_retry` call: a non-empty sorted series,
`None` (empty accumulation), or a propagated exception. -/
inductive FetchRes where
  | success (df : List Candle)
  | empty
  | raised
deriving DecidableEq

/-- `_download_with_retry(symbol, start_date, end_date, timeframe)` after date
conversion: run the loop from the start cursor with empty accumulation, then
`if not all_ohlcv: return None` else build and sort the DataFrame. -/
def downloadWithRetry (E : Exch) (fuel : Nat) (startTs : Int) (endTs : Option Int)
    (k : Nat) : Option FetchRes × List Ev × Nat :=
  match downloadLoop E fuel startTs endTs [] 0 k with
  | (none, tr, k') => (none, tr, k')
  | (some .err, tr, k') => (some .raised, tr, k')
  | (some (.ok acc), tr, k') =>
    if acc = [] then (some .empty, tr, k')
    else (some (.success (sortByTs acc)), tr, k')

/-- The `for attempt in range(max_retries)` body of `download_crypto`:
`remaining` attempts left (current one included), `attempt` is the 0-based
index of the current one.  A normal return (series or `None`) is returned as
is; an exception triggers `sleep((attempt+1)*5)` and the next attempt unless
this was the last one, in which case `None` is returned. -/
def attemptsGo (E : Exch) (fuel : Nat) (startTs : Int) (endTs : Option Int) :
    Nat → Nat → Nat → Option (Option (List Candle)) × List Ev × Nat
  | 0, _, k => (some none, [], k)
  | remaining + 1, attempt, k =>
    match downloadWithRetry E fuel startTs endTs k with
    | (none, tr, k') => (none, tr, k')
    | (some (.success df), tr, k') => (some (some df), tr, k')
    | (some .empty, tr, k') => (some none, tr, k')
    | (some .raised, tr, k') =>
      if remaining = 0 then (some none, tr, k')
      else
        match attemptsGo E fuel startTs endTs remaining (attempt + 1) k' with
        | (r, tr', k'') => (r, tr ++ Ev.sleepOuter ((attempt + 1) * 5) :: tr', k'')

/-- `download_crypto(symbol, start_date, end_date, timeframe, max_retries=3)`.
Result `some (some df)` = returned series, `some none` = returned `None`,
`none` = out of fuel. -/
def downloadCrypto (E : Exch) (fuel : Nat) (startTs : Int) (endTs : Option Int)
    (maxRetries : Nat) : Option (Option (List Candle)) × List Ev :=
  ((attemptsGo E fuel startTs endTs maxRetries 0 0).1,
   (attemptsGo E fuel startTs endTs maxRetries 0 0).2.1)

/-- Output filename `f"{coin_name}_{timeframe.upper()}_Binance_{date_str}.csv"`
with `coin_name = symbol.replace('/', '')`. -/
def mkFilename (symbol timeframe today : String) : String :=
  (symbol.replace "/" "") ++ "_" ++ timeframe.toUpper ++ "_Binance_" ++ today ++ ".csv"

/-- A written output file: path and the series it contains. -/
abbrev OutFile := String × List Candle

/-- `save_data(df, filename)`: refuse `None` or empty, otherwise write
`{data_dir}/{filename}` and return `True`.  Returns the success flag and the
file written (if any). -/
def save_data (df : Option (List Candle)) (filename : String) :
    Bool × Option OutFile :=
  match df with
  | none => (false, none)
  | some l =>
    if l.length = 0 then (false, none)
    else (true, some ("trading_data/raw/" ++ filename, l))

/-- `download_and_save(symbol, start_date, end_date, timeframe)`: fetch, and if
a series came back, save it under the derived filename.  `none` = out of
fuel. -/
def download_and_save (E : Exch) (fuel : Nat) (symbol : String) (startTs : Int)
    (endTs : Option Int) (timeframe today : String) :
    Option (Bool × Option OutFile) :=
  match (downloadCrypto E fuel startTs endTs 3).1 with
  | none => none
  | some none => some (false, none)
  | some (some df) => some (save_data (some df) (mkFilename symbol timeframe today))

/-- Per-symbol result record `{'symbol': ..., 'status': 'success'|'failed'}`. -/
structure DownloadResult where
  symbol : String
  status : String
deriving DecidableEq

/-- The status string `batch_download` records for one symbol, given the
per-symbol oracle: `success` iff `download_and_save` returned `True`. -/
def symStatus (W : String → Exch) (fuel : Nat) (symbol : String) (startTs : Int)
    (endTs : Option Int) (timeframe today : String) : String :=
  match download_and_save (W symbol) fuel symbol startTs endTs timeframe today with
  | some (true, _) => "success"
  | _ => "failed"

/-- `batch_download(symbols, start_date, end_date, timeframe)`: for each symbol
in order, `download_and_save`, append its result record; collect all files
written.  `none` = some symbol ran out of fuel.  The world `W` gives each
symbol its exchange behaviour (requests for one symbol are consecutive, so the
per-symbol call index matches the oracle's). -/
def batch_download (W : String → Exch) (fuel : Nat) (symbols : List String)
    (startTs : Int) (endTs : Option Int) (timeframe today : String) :
    Option (List DownloadResult × List OutFile) :=
  match symbols with
  | [] => some ([], [])
  | s :: rest =>
    match download_and_save (W s) fuel s startTs endTs timeframe today with
    | none => none
    | some (ok, file) =>
      match batch_download W fuel rest startTs endTs timeframe today with
      | none => none
      | some (results, files) =>
        some (⟨s, if ok then "success" else "failed"⟩ :: results,
              (match file with | some f => [f] | none => []) ++ files)

/-- Strictly ascending by timestamp (hence no duplicate timestamps). -/
abbrev StrictByTs (l : List Candle) : Prop :=
  l.Pairwise (fun a b => a.ts < b.ts)

/-- Sorted (non-strictly) ascending by timestamp. -/
abbrev SortedByTs (l : List Candle) : Prop :=
  l.Pairwise (fun a b => a.ts ≤ b.ts)

/-- A well-behaved exchange: every batch it returns is strictly ascending by
timestamp and contains only candles at or after the requested cursor (spec §6:
the OHLCV call returns "an ordered list of candle tuples" for the given
since-timestamp). -/
def GoodExch (E : Exch) : Prop :=
  ∀ k s b, E k s = .ok b → StrictByTs b ∧ ∀ c ∈ b, s ≤ c.ts

/-- In a strictly ascending list every member's timestamp is at most the last
candle's timestamp. -/
lemma ts_le_lastTs {l : List Candle} (hl : StrictByTs l) {c : Candle}
    (hc : c ∈ l) : c.ts ≤ lastTs l := by
  rcases l.eq_nil_or_concat with rfl | ⟨l', x, rfl⟩
  · exact absurd hc (List.not_mem_nil c)
  · rw [List.concat_eq_append] at hl hc ⊢
    unfold StrictByTs at hl
    rw [List.pairwise_append] at hl
    unfold lastTs
    rw [List.getLastD_concat]
    rcases List.mem_append.mp hc with hc' | hc'
    · exact le_of_lt (hl.2.2 c hc' x (List.mem_singleton_self x))
    · rw [List.mem_singleton.mp hc']

/-- The default-valued last element of a non-empty list is a member. -/
lemma getLastD_mem {l : List Candle} (hl : l ≠ []) (d : Candle) :
    l.getLastD d ∈ l := by
  rcases l.eq_nil_or_concat with rfl | ⟨l', x, rfl⟩
  · exact absurd rfl hl
  · rw [List.concat_eq_append, List.getLastD_concat]
    exact List.mem_append.mpr (Or.inr (List.mem_singleton_self x))

/-- Loop invariant: if the accumulated list is strictly ascending and lies
strictly below the cursor, and the exchange is well-behaved, then a normal
loop exit yields a strictly ascending accumulation. -/
lemma downloadLoop_ok_strict {E : Exch} (hE : GoodExch E) :
    ∀ fuel s e acc cerr k res,
      StrictByTs acc → (∀ c ∈ acc, c.ts < s) →
      (downloadLoop E fuel s e acc cerr k).1 = some (.ok res) →
      StrictByTs res := by
  intro fuel
  induction fuel with
  | zero => intro s e acc cerr k res _ _ h; simp [downloadLoop] at h
  | succ fuel ih =>
    intro s e acc cerr k res hacc hlt h
    rw [downloadLoop] at h
    split at h
    · -- request raised
      split at h
      · simp at h
      · rcases hd : downloadLoop E fuel s e acc (cerr + 1) (k + 1) with ⟨r, tr', k'⟩
        rw [hd] at h
        exact ih s e acc (cerr + 1) (k + 1) res hacc hlt (by rw [hd]; exact h)
    · -- request returned a batch b
      rename_i b heq
      have hb := hE k s b heq
      have happ : StrictByTs (acc ++ b) := by
        unfold StrictByTs
        rw [List.pairwise_append]
        exact ⟨hacc, hb.1, fun a ha c hc => lt_of_lt_of_le (hlt a ha) (hb.2 c hc)⟩
      split at h
      · -- empty batch: break with acc
        simp at h
        rw [← h]; exact hacc
      · rename_i hbne
        split at h
        · -- end boundary reached: break with acc ++ b
          simp at h
          rw [← h]; exact happ
        · split at h
          · -- short batch: break with acc ++ b
            simp at h
            rw [← h]; exact happ
          · -- full batch: continue at cursor lastTs b + 1
            rcases hd : downloadLoop E fuel (lastTs b + 1) e (acc ++ b) 0 (k + 1) with
              ⟨r, tr', k'⟩
            rw [hd] at h
            refine ih (lastTs b + 1) e (acc ++ b) 0 (k + 1) res happ ?_
              (by rw [hd]; exact h)
            intro c hc
            have hsle : s ≤ lastTs b := hb.2 _ (getLastD_mem hbne default)
            rcases List.mem_append.mp hc with hc' | hc'
            · exact lt_of_lt_of_le (hlt c hc') (by omega)
            · have := ts_le_lastTs hb.1 hc'
              omega

/-- Error step below the tolerance: the request is retried at the same cursor
with the same accumulation after the fixed backoff, the counter incremented. -/
lemma loop_err_step {E : Exch} {fuel : Nat} {s : Int} {e : Option Int}
    {acc : List Candle} {cerr k : Nat} {u : Unit} (hEk : E k s = .error u)
    (hc : cerr + 1 ≤ 3) :
    downloadLoop E (fuel + 1) s e acc cerr k =
      ((downloadLoop E fuel s e acc (cerr + 1) (k + 1)).1,
       .fetch k s :: .sleepErr :: (downloadLoop E fuel s e acc (cerr + 1) (k + 1)).2.1,
       (downloadLoop E fuel s e acc (cerr + 1) (k + 1)).2.2) := by
  rw [downloadLoop, hEk]
  simp only [if_neg (by omega : ¬cerr + 1 > 3)]

/-- Error step at the tolerance boundary: the fourth consecutive error raises. -/
lemma loop_raise_step {E : Exch} {fuel : Nat} {s : Int} {e : Option Int}
    {acc : List Candle} {cerr k : Nat} {u : Unit} (hEk : E k s = .error u)
    (hc : cerr + 1 > 3) :
    downloadLoop E (fuel + 1) s e acc cerr k = (some .err, [.fetch k s], k + 1) := by
  rw [downloadLoop, hEk]
  simp only [if_pos hc]

/-- Empty batch: the loop breaks with the current accumulation. -/
lemma loop_empty_step {E : Exch} {fuel : Nat} {s : Int} {e : Option Int}
    {acc : List Candle} {cerr k : Nat} (hEk : E k s = .ok []) :
    downloadLoop E (fuel + 1) s e acc cerr k =
      (some (.ok acc), [.fetch k s], k + 1) := by
  rw [downloadLoop, hEk]
  rfl

/-- Short non-empty batch: the loop appends it and breaks at once. -/
lemma loop_short_step {E : Exch} {fuel : Nat} {s : Int} {e : Option Int}
    {acc : List Candle} {cerr k : Nat} {b : List Candle} (hEk : E k s = .ok b)
    (hbne : b ≠ []) (hlen : b.length < batchLimit) :
    downloadLoop E (fuel + 1) s e acc cerr k =
      (some (.ok (acc ++ b)), [.fetch k s], k + 1) := by
  rw [downloadLoop, hEk]
  simp only [if_neg hbne, if_pos hlen]
  split
  · rfl
  · rfl

/-- Non-empty batch crossing the end boundary: append and break. -/
lemma loop_end_step {E : Exch} {fuel : Nat} {s : Int} {e : Option Int}
    {acc : List Candle} {cerr k : Nat} {b : List Candle} (hEk : E k s = .ok b)
    (hbne : b ≠ []) (hend : endReached e (lastTs b + 1) = true) :
    downloadLoop E (fuel + 1) s e acc cerr k =
      (some (.ok (acc ++ b)), [.fetch k s], k + 1) := by
  rw [downloadLoop, hEk]
  simp only [if_neg hbne, if_pos hend]

/-- Full batch short of the end boundary: append, reset the error counter to 0,
and continue at cursor (last timestamp + 1) after the pacing sleep. -/
lemma loop_full_step {E : Exch} {fuel : Nat} {s : Int} {e : Option Int}
    {acc : List Candle} {cerr k : Nat} {b : List Candle} (hEk : E k s = .ok b)
    (hbne : b ≠ []) (hend : endReached e (lastTs b + 1) = false)
    (hlen : ¬b.length < batchLimit) :
    downloadLoop E (fuel + 1) s e acc cerr k =
      ((downloadLoop E fuel (lastTs b + 1) e (acc ++ b) 0 (k + 1)).1,
       .fetch k s :: .sleepPace ::
         (downloadLoop E fuel (lastTs b + 1) e (acc ++ b) 0 (k + 1)).2.1,
       (downloadLoop E fuel (lastTs b + 1) e (acc ++ b) 0 (k + 1)).2.2) := by
  rw [downloadLoop, hEk]
  simp only [if_neg hbne, hend, Bool.false_eq_true, if_false, if_neg hlen]

/-- Outcome-level version of `loop_err_step`. -/
lemma loop_err_step_fst {E : Exch} {fuel : Nat} {s : Int} {e : Option Int}
    {acc : List Candle} {cerr k : Nat} {u : Unit} (hEk : E k s = .error u)
    (hc : cerr + 1 ≤ 3) :
    (downloadLoop E (fuel + 1) s e acc cerr k).1 =
      (downloadLoop E fuel s e acc (cerr + 1) (k + 1)).1 := by
  rw [loop_err_step hEk hc]

/-- Outcome-level version of `loop_full_step`. -/
lemma loop_full_step_fst {E : Exch} {fuel : Nat} {s : Int} {e : Option Int}
    {acc : List Candle} {cerr k : Nat} {b : List Candle} (hEk : E k s = .ok b)
    (hbne : b ≠ []) (hend : endReached e (lastTs b + 1) = false)
    (hlen : ¬b.length < batchLimit) :
    (downloadLoop E (fuel + 1) s e acc cerr k).1 =
      (downloadLoop E fuel (lastTs b + 1) e (acc ++ b) 0 (k + 1)).1 := by
  rw [loop_full_step hEk hbne hend hlen]

/-- The overall outcome of `_download_with_retry` is determined by the loop
outcome: exception propagated, `None` on empty accumulation, sorted series
otherwise. -/
lemma downloadWithRetry_fst (E : Exch) (fuel : Nat) (s : Int) (e : Option Int)
    (k : Nat) :
    (downloadWithRetry E fuel s e k).1 =
      match (downloadLoop E fuel s e [] 0 k).1 with
      | none => none
      | some .err => some .raised
      | some (.ok acc) =>
        if acc = [] then some .empty else some (.success (sortByTs acc)) := by
  unfold downloadWithRetry
  rcases downloadLoop E fuel s e [] 0 k with ⟨r, tr, k₁⟩
  rcases r with _ | lo
  · rfl
  · rcases lo with acc | _
    · by_cases hacc : acc = [] <;> simp [hacc]
    · rfl

/-- An attempt that returns a series ends the outer retry at once. -/
lemma attempts_success_step {E : Exch} {fuel : Nat} {s : Int} {e : Option Int}
    {k : Nat} {df : List Candle} {tr : List Ev} {k' : Nat} {r attempt : Nat}
    (h : downloadWithRetry E fuel s e k = (some (.success df), tr, k')) :
    attemptsGo E fuel s e (r + 1) attempt k = (some (some df), tr, k') := by
  rw [attemptsGo, h]

/-- An attempt that returns `None` (nothing accumulated) also ends the outer
retry at once: `download_crypto` returns it without retrying. -/
lemma attempts_empty_step {E : Exch} {fuel : Nat} {s : Int} {e : Option Int}
    {k : Nat} {tr : List Ev} {k' : Nat} {r attempt : Nat}
    (h : downloadWithRetry E fuel s e k = (some .empty, tr, k')) :
    attemptsGo E fuel s e (r + 1) attempt k = (some none, tr, k') := by
  rw [attemptsGo, h]

/-- A raising attempt with attempts left: back off `(attempt+1)*5` seconds and
try again. -/
lemma attempts_raised_step {E : Exch} {fuel : Nat} {s : Int} {e : Option Int}
    {k : Nat} {tr : List Ev} {k' : Nat} {r attempt : Nat}
    {res : Option (Option (List Candle))} {tr' : List Ev} {k'' : Nat}
    (h : downloadWithRetry E fuel s e k = (some .raised, tr, k')) (hr : r ≠ 0)
    (hrec : attemptsGo E fuel s e r (attempt + 1) k' = (res, tr', k'')) :
    attemptsGo E fuel s e (r + 1) attempt k =
      (res, tr ++ .sleepOuter ((attempt + 1) * 5) :: tr', k'') := by
  rw [attemptsGo, h]
  simp only [if_neg hr, hrec]

/-- A raising attempt with no attempts left: `download_crypto` returns `None`
rather than propagating the exception. -/
lemma attempts_raised_last {E : Exch} {fuel : Nat} {s : Int} {e : Option Int}
    {k : Nat} {tr : List Ev} {k' : Nat} {attempt : Nat}
    (h : downloadWithRetry E fuel s e k = (some .raised, tr, k')) :
    attemptsGo E fuel s e (0 + 1) attempt k = (some none, tr, k') := by
  rw [attemptsGo, h]
  rfl

/-- Predicate for the 2 s in-loop error backoff events. -/
def isErrBackoff : Ev → Bool
  | .sleepErr => true
  | _ => false

/-- Predicate for issued OHLCV requests. -/
def isFetch : Ev → Bool
  | .fetch _ _ => true
  | _ => false

/-! Concrete oracles and candles used to instantiate the theorems. -/

/-- A candle with the given timestamp and a fixed payload. -/
def cand (t : Int) : Candle := ⟨t, 1, 2, 3, 4, 5⟩

/-- An exchange whose every request raises. -/
def failE : Exch := fun _ _ => .error ()

/-- An exchange that always answers with one short batch. -/
def oneShortE : Exch := fun _ _ => .ok [cand 100]

/-- An exchange that always answers with an empty batch. -/
def noDataE : Exch := fun _ _ => .ok []

/-- An exchange raising on the first three requests, then one short batch. -/
def err3E : Exch := fun k _ => if k < 3 then .error () else .ok [cand 100]

/-- A conforming exchange for the end-boundary counterexample: candles at 100
and 200, served for any cursor at or below 100. -/
def ceE : Exch := fun _ s => if s ≤ 100 then .ok [cand 100, cand 200] else .ok []

/-- A full batch of `batchLimit` consecutive candles starting at cursor `s`. -/
def bigBatch (s : Int) : List Candle :=
  (List.range batchLimit).map (fun i => cand (s + Int.ofNat i))

/-- An exchange that always answers with a full batch from the cursor on. -/
def bigE : Exch := fun _ s => .ok (bigBatch s)

/-- Three errors, then a full batch, then end of data. -/
def cycleE : Exch := fun k s =>
  if k < 3 then .error () else if k = 3 then .ok (bigBatch s) else .ok []

/-- A two-symbol world: BTC/USDT succeeds with one short batch, anything else
always raises. -/
def worldW : String → Exch := fun sym => if sym = "BTC/USDT" then oneShortE else failE

/-- The stable re-sort leaves an already sorted list unchanged. -/
lemma sortByTs_eq_self {l : List Candle} (h : SortedByTs l) : sortByTs l = l :=
  List.mergeSort_of_sorted (h.imp fun hab => decide_eq_true hab)

/-- Triple-level outcome of `_download_with_retry` from a non-empty loop exit. -/
lemma dwr_of_loop {E : Exch} {fuel : Nat} {s : Int} {e : Option Int} {k : Nat}
    {acc : List Candle} {tr : List Ev} {k' : Nat}
    (hl : downloadLoop E fuel s e [] 0 k = (some (.ok acc), tr, k'))
    (hne : acc ≠ []) :
    downloadWithRetry E fuel s e k = (some (.success (sortByTs acc)), tr, k') := by
  unfold downloadWithRetry
  rw [hl]
  simp [hne]

/-- Triple-level outcome of `_download_with_retry` from a raising loop exit. -/
lemma dwr_raised_of_loop {E : Exch} {fuel : Nat} {s : Int} {e : Option Int}
    {k : Nat} {tr : List Ev} {k' : Nat}
    (hl : downloadLoop E fuel s e [] 0 k = (some .err, tr, k')) :
    downloadWithRetry E fuel s e k = (some .raised, tr, k') := by
  unfold downloadWithRetry
  rw [hl]

lemma bigBatch_length (s : Int) : (bigBatch s).length = batchLimit := by
  unfold bigBatch
  rw [List.length_map, List.length_range]

lemma bigBatch_ne_nil (s : Int) : bigBatch s ≠ [] := by
  intro h
  have hl := bigBatch_length s
  rw [h] at hl
  simp [batchLimit] at hl

lemma bigBatch_not_short (s : Int) : ¬(bigBatch s).length < batchLimit := by
  rw [bigBatch_length]
  omega

/-- C5: if a batch request returns a non-empty batch of fewer than
`batch_limit` (1000) candles, the pagination loop terminates immediately after
processing that batch: it appends the batch, breaks, and the trace of that
step records exactly the one request. -/
theorem short_batch_terminates (E : Exch) (fuel : Nat) (s : Int) (e : Option Int)
    (acc : List Candle) (cerr k : Nat) (b : List Candle) (hEk : E k s = .ok b)
    (hbne : b ≠ []) (hlen : b.length < batchLimit) :
    downloadLoop E (fuel + 1) s e acc cerr k =
      (some (.ok (acc ++ b)), [.fetch k s], k + 1) :=
  loop_short_step hEk hbne hlen

/-- Witness for C5: a single 1-candle batch ends the loop at once. -/
theorem short_batch_terminates_witness :
    downloadLoop oneShortE (0 + 1) 0 none [] 0 0 =
      (some (.ok ([] ++ [cand 100])), [.fetch 0 0], 0 + 1) :=
  short_batch_terminates oneShortE 0 0 none [] 0 0 [cand 100] rfl (by decide) (by decide)

/-- C8: on a normal loop exit the accumulated candles are sorted ascending by
timestamp (stable re-sort) before being returned, and an attempt that
accumulated nothing yields `None` (`.empty`) rather than an empty Series. -/
theorem sorted_series_or_none (E : Exch) (fuel : Nat) (s : Int) (e : Option Int)
    (k : Nat) :
    ((downloadLoop E fuel s e [] 0 k).1 = some (.ok []) →
      (downloadWithRetry E fuel s e k).1 = some .empty) ∧
    (∀ acc, (downloadLoop E fuel s e [] 0 k).1 = some (.ok acc) → acc ≠ [] →
      (downloadWithRetry E fuel s e k).1 = some (.success (sortByTs acc)) ∧
      SortedByTs (sortByTs acc)) := by
  constructor
  · intro h
    rw [downloadWithRetry_fst, h]
    rfl
  · intro acc h hne
    constructor
    · rw [downloadWithRetry_fst, h]
      simp [hne]
    · unfold SortedByTs sortByTs
      refine List.Pairwise.imp (fun hab => of_decide_eq_true hab)
        (@List.sorted_mergeSort Candle (fun a b => a.ts ≤ b.ts) ?_ ?_ acc)
      · intro a b c hab hbc
        simp only [decide_eq_true_eq] at hab hbc ⊢
        omega
      · intro a b
        rcases le_total a.ts b.ts with hh | hh <;> simp [hh]

/-- Witness for C8: an all-empty exchange yields `.empty`; a one-candle batch
yields the sorted singleton series. -/
theorem sorted_series_or_none_witness :
    (downloadWithRetry noDataE 1 0 none 0).1 = some .empty ∧
    ((downloadWithRetry oneShortE 1 0 none 0).1 =
        some (.success (sortByTs [cand 100])) ∧
      SortedByTs (sortByTs [cand 100])) :=
  ⟨(sorted_series_or_none noDataE 1 0 none 0).1 (by decide),
   (sorted_series_or_none oneShortE 1 0 none 0).2 [cand 100] (by decide) (by decide)⟩

/-- C1 (amended): a successful fetch from a well-behaved exchange (each batch
strictly ascending, at or after the requested cursor) returns a strictly
ascending series with no duplicate timestamps.  The end-boundary clause of the
original claim is dropped: see the counterexample. -/
theorem fetch_success_strictly_ascending (E : Exch) (hE : GoodExch E) (fuel : Nat)
    (s : Int) (e : Option Int) (k : Nat) (df : List Candle)
    (h : (downloadWithRetry E fuel s e k).1 = some (.success df)) :
    StrictByTs df ∧ (df.map Candle.ts).Nodup := by
  rw [downloadWithRetry_fst] at h
  split at h
  · exact absurd h (by simp)
  · exact absurd h (by simp)
  · rename_i acc heq
    split at h
    · exact absurd h (by simp)
    · simp only [Option.some.injEq, FetchRes.success.injEq] at h
      subst h
      have hstrict : StrictByTs acc :=
        downloadLoop_ok_strict hE fuel s e [] 0 k acc List.Pairwise.nil (by simp) heq
      have hself : sortByTs acc = acc :=
        List.mergeSort_of_sorted
          (hstrict.imp (fun hab => decide_eq_true (le_of_lt hab)))
      unfold sortByTs at hself
      unfold sortByTs
      rw [hself]
      refine ⟨hstrict, ?_⟩
      exact List.pairwise_map.mpr (hstrict.imp (fun hab => ne_of_lt hab))

/-- Witness for C1 (amended): a conforming 2-candle exchange yields a strictly
ascending duplicate-free series. -/
theorem fetch_success_strictly_ascending_witness :
    StrictByTs [cand 100, cand 200] ∧
      ([cand 100, cand 200].map Candle.ts).Nodup := by
  have hg : GoodExch ceE := by
    intro k s b hb
    unfold ceE at hb
    split at hb
    · rename_i hs
      injection hb with hb
      subst hb
      refine ⟨by decide, ?_⟩
      intro c hc
      simp only [List.mem_cons, List.mem_singleton] at hc
      rcases hc with rfl | hc
      · simpa [cand] using hs
      · rcases hc with rfl | hc
        · simp only [cand]
          omega
        · exact absurd hc (List.not_mem_nil c)
    · injection hb with hb
      subst hb
      exact ⟨List.Pairwise.nil, by simp⟩
  have hloop : (downloadLoop ceE 2 0 (some 150) [] 0 0).1 =
      some (.ok [cand 100, cand 200]) := by decide
  have hdwr : (downloadWithRetry ceE 2 0 (some 150) 0).1 =
      some (.success [cand 100, cand 200]) := by
    rw [downloadWithRetry_fst, hloop]
    simp only [reduceIte, sortByTs_eq_self (show SortedByTs [cand 100, cand 200] by decide)]
    decide
  exact fetch_success_strictly_ascending ceE hg 2 0 (some 150) 0
    [cand 100, cand 200] hdwr

/-- C1 counterexample: with a conforming exchange (batches strictly ascending,
at or after the cursor) and end boundary 150, the fetch succeeds and the
returned series contains a candle with timestamp 200 > 150: the final batch is
not truncated at the end boundary, refuting the original end-boundary clause. -/
theorem fetch_end_boundary_counterexample :
    GoodExch ceE ∧
    (downloadWithRetry ceE 2 0 (some 150) 0).1 =
      some (.success [cand 100, cand 200]) ∧
    cand 200 ∈ [cand 100, cand 200] ∧ (150 : Int) < (cand 200).ts := by
  have hloop : (downloadLoop ceE 2 0 (some 150) [] 0 0).1 =
      some (.ok [cand 100, cand 200]) := by decide
  refine ⟨?_, by rw [downloadWithRetry_fst, hloop]; simp only [reduceIte,
    sortByTs_eq_self (show SortedByTs [cand 100, cand 200] by decide)]; decide, by decide, by decide⟩
  intro k s b hb
  unfold ceE at hb
  split at hb
  · rename_i hs
    injection hb with hb
    subst hb
    refine ⟨by decide, ?_⟩
    intro c hc
    simp only [List.mem_cons, List.mem_singleton] at hc
    rcases hc with rfl | hc
    · simpa [cand] using hs
    · rcases hc with rfl | hc
      · simp only [cand]
        omega
      · exact absurd hc (List.not_mem_nil c)
  · injection hb with hb
    subst hb
    exact ⟨List.Pairwise.nil, by simp⟩

/-- C6: after every successful non-empty batch that continues the loop, the
next request's cursor is (last candle's timestamp + 1 ms); and provided every
batch holds only candles at or after its requested cursor (and is itself
strictly ascending), the accumulated series has no duplicate timestamps. -/
theorem cursor_advances_past_last :
    (∀ (E : Exch) (fuel : Nat) (s : Int) (e : Option Int) (acc : List Candle)
        (cerr k : Nat) (b : List Candle),
      E k s = .ok b → b ≠ [] → endReached e (lastTs b + 1) = false →
      ¬b.length < batchLimit →
      downloadLoop E (fuel + 1) s e acc cerr k =
        ((downloadLoop E fuel (lastTs b + 1) e (acc ++ b) 0 (k + 1)).1,
         .fetch k s :: .sleepPace ::
           (downloadLoop E fuel (lastTs b + 1) e (acc ++ b) 0 (k + 1)).2.1,
         (downloadLoop E fuel (lastTs b + 1) e (acc ++ b) 0 (k + 1)).2.2)) ∧
    (∀ E : Exch, GoodExch E → ∀ fuel s e k res,
      (downloadLoop E fuel s e [] 0 k).1 = some (.ok res) →
      (res.map Candle.ts).Nodup) := by
  constructor
  · intro E fuel s e acc cerr k b h1 h2 h3 h4
    exact loop_full_step h1 h2 h3 h4
  · intro E hE fuel s e k res h
    have hstrict : StrictByTs res :=
      downloadLoop_ok_strict hE fuel s e [] 0 k res List.Pairwise.nil (by simp) h
    exact List.pairwise_map.mpr (hstrict.imp (fun hab => ne_of_lt hab))

/-- Witness for C6: a full-batch exchange advances the cursor to the last
timestamp + 1; a trivially conforming exchange yields duplicate-free series. -/
theorem cursor_advances_past_last_witness :
    (downloadLoop bigE (0 + 1) 0 none [] 0 0 =
      ((downloadLoop bigE 0 (lastTs (bigBatch 0) + 1) none ([] ++ bigBatch 0) 0 (0 + 1)).1,
       .fetch 0 0 :: .sleepPace ::
         (downloadLoop bigE 0 (lastTs (bigBatch 0) + 1) none ([] ++ bigBatch 0) 0 (0 + 1)).2.1,
       (downloadLoop bigE 0 (lastTs (bigBatch 0) + 1) none ([] ++ bigBatch 0) 0 (0 + 1)).2.2)) ∧
    (([] : List Candle).map Candle.ts).Nodup := by
  refine ⟨cursor_advances_past_last.1 bigE 0 0 none [] 0 0 (bigBatch 0) rfl
            (bigBatch_ne_nil 0) rfl (bigBatch_not_short 0),
          cursor_advances_past_last.2 noDataE ?_ 1 0 none 0 [] (by decide)⟩
  intro k s b hb
  injection hb with hb
  subst hb
  exact ⟨List.Pairwise.nil, by simp⟩

/-- C2: inside one whole-fetch attempt, an error below the tolerance is
retried at the same cursor with the accumulation intact (first conjunct); a
source erroring on exactly the first 3 calls then answering a short batch
still yields the successful series (second conjunct); 4 consecutive errors
abort the attempt with an exception (third conjunct). -/
theorem in_loop_error_tolerance :
    (∀ (E : Exch) (fuel : Nat) (s : Int) (e : Option Int) (acc : List Candle)
        (cerr k : Nat) (u : Unit), E k s = .error u → cerr + 1 ≤ 3 →
      downloadLoop E (fuel + 1) s e acc cerr k =
        ((downloadLoop E fuel s e acc (cerr + 1) (k + 1)).1,
         .fetch k s :: .sleepErr :: (downloadLoop E fuel s e acc (cerr + 1) (k + 1)).2.1,
         (downloadLoop E fuel s e acc (cerr + 1) (k + 1)).2.2)) ∧
    (∀ (E : Exch) (fuel : Nat) (s : Int) (e : Option Int) (b : List Candle),
      E 0 s = .error () → E 1 s = .error () → E 2 s = .error () →
      E 3 s = .ok b → b ≠ [] → b.length < batchLimit →
      (downloadWithRetry E (fuel + 4) s e 0).1 = some (.success (sortByTs b))) ∧
    (∀ (E : Exch) (fuel : Nat) (s : Int) (e : Option Int),
      E 0 s = .error () → E 1 s = .error () → E 2 s = .error () →
      E 3 s = .error () →
      (downloadWithRetry E (fuel + 4) s e 0).1 = some .raised) := by
  refine ⟨fun E fuel s e acc cerr k u h hc => loop_err_step h hc, ?_, ?_⟩
  · intro E fuel s e b h0 h1 h2 h3 hbne hlen
    rw [downloadWithRetry_fst]
    have e1 : (downloadLoop E (fuel + 4) s e [] 0 0).1 =
        (downloadLoop E (fuel + 3) s e [] 1 1).1 := loop_err_step_fst h0 (by omega)
    have e2 : (downloadLoop E (fuel + 3) s e [] 1 1).1 =
        (downloadLoop E (fuel + 2) s e [] 2 2).1 := loop_err_step_fst h1 (by omega)
    have e3 : (downloadLoop E (fuel + 2) s e [] 2 2).1 =
        (downloadLoop E (fuel + 1) s e [] 3 3).1 := loop_err_step_fst h2 (by omega)
    have e4 : downloadLoop E (fuel + 1) s e [] 3 3 =
        (some (.ok ([] ++ b)), [.fetch 3 s], 3 + 1) := loop_short_step h3 hbne hlen
    rw [e1, e2, e3, e4]
    simp [hbne]
  · intro E fuel s e h0 h1 h2 h3
    rw [downloadWithRetry_fst]
    have e1 : (downloadLoop E (fuel + 4) s e [] 0 0).1 =
        (downloadLoop E (fuel + 3) s e [] 1 1).1 := loop_err_step_fst h0 (by omega)
    have e2 : (downloadLoop E (fuel + 3) s e [] 1 1).1 =
        (downloadLoop E (fuel + 2) s e [] 2 2).1 := loop_err_step_fst h1 (by omega)
    have e3 : (downloadLoop E (fuel + 2) s e [] 2 2).1 =
        (downloadLoop E (fuel + 1) s e [] 3 3).1 := loop_err_step_fst h2 (by omega)
    have e4 : downloadLoop E (fuel + 1) s e [] 3 3 =
        (some .err, [.fetch 3 s], 3 + 1) := loop_raise_step h3 (by omega)
    rw [e1, e2, e3, e4]

/-- Witness for C2: the error step at cerr 0; a source erroring on calls 0-2
then answering; an always-erroring source. -/
theorem in_loop_error_tolerance_witness :
    (downloadLoop failE (0 + 1) 0 none [] 0 0 =
      ((downloadLoop failE 0 0 none [] (0 + 1) (0 + 1)).1,
       .fetch 0 0 :: .sleepErr :: (downloadLoop failE 0 0 none [] (0 + 1) (0 + 1)).2.1,
       (downloadLoop failE 0 0 none [] (0 + 1) (0 + 1)).2.2)) ∧
    (downloadWithRetry err3E (0 + 4) 0 none 0).1 =
      some (.success (sortByTs [cand 100])) ∧
    (downloadWithRetry failE (0 + 4) 0 none 0).1 = some .raised :=
  ⟨in_loop_error_tolerance.1 failE 0 0 none [] 0 0 () rfl (by omega),
   in_loop_error_tolerance.2.1 err3E 0 0 none [cand 100] rfl rfl rfl rfl
     (by decide) (by decide),
   in_loop_error_tolerance.2.2 failE 0 0 none rfl rfl rfl rfl⟩

/-- C3: with `max_retries = 3`, three raising whole-fetch attempts produce a
final `None` (never a propagated exception), with outer backoffs of 1×5 and
2×5 seconds between consecutive attempts. -/
theorem outer_retry_returns_none (E : Exch) (fuel : Nat) (s : Int) (e : Option Int)
    (tr0 tr1 tr2 : List Ev) (k1 k2 k3 : Nat)
    (h0 : downloadWithRetry E fuel s e 0 = (some .raised, tr0, k1))
    (h1 : downloadWithRetry E fuel s e k1 = (some .raised, tr1, k2))
    (h2 : downloadWithRetry E fuel s e k2 = (some .raised, tr2, k3)) :
    downloadCrypto E fuel s e 3 =
      (some none, tr0 ++ .sleepOuter (1 * 5) :: (tr1 ++ .sleepOuter (2 * 5) :: tr2)) := by
  have A2 : attemptsGo E fuel s e 1 2 k2 = (some none, tr2, k3) :=
    attempts_raised_last h2
  have A1 : attemptsGo E fuel s e 2 1 k1 =
      (some none, tr1 ++ .sleepOuter (2 * 5) :: tr2, k3) :=
    attempts_raised_step h1 (by omega) A2
  have A0 : attemptsGo E fuel s e 3 0 0 =
      (some none, tr0 ++ .sleepOuter (1 * 5) :: (tr1 ++ .sleepOuter (2 * 5) :: tr2), k3) :=
    attempts_raised_step h0 (by omega) A1
  unfold downloadCrypto
  rw [A0]

/-- Witness for C3: an always-failing source with fuel 4 per attempt. -/
theorem outer_retry_returns_none_witness :
    downloadCrypto failE 4 0 none 3 =
      (some none,
       [.fetch 0 0, .sleepErr, .fetch 1 0, .sleepErr, .fetch 2 0, .sleepErr,
        .fetch 3 0] ++ .sleepOuter (1 * 5) ::
       ([.fetch 4 0, .sleepErr, .fetch 5 0, .sleepErr, .fetch 6 0, .sleepErr,
         .fetch 7 0] ++ .sleepOuter (2 * 5) ::
        [.fetch 8 0, .sleepErr, .fetch 9 0, .sleepErr, .fetch 10 0, .sleepErr,
         .fetch 11 0])) :=
  outer_retry_returns_none failE 4 0 none
    [.fetch 0 0, .sleepErr, .fetch 1 0, .sleepErr, .fetch 2 0, .sleepErr, .fetch 3 0]
    [.fetch 4 0, .sleepErr, .fetch 5 0, .sleepErr, .fetch 6 0, .sleepErr, .fetch 7 0]
    [.fetch 8 0, .sleepErr, .fetch 9 0, .sleepErr, .fetch 10 0, .sleepErr, .fetch 11 0]
    4 8 12 (by decide) (by decide) (by decide)

/-- C7: a symbol's file is written only after the symbol's full series has
been assembled: a fetch that returns nothing writes no file, and any written
file holds exactly the series `download_crypto` returned, at the derived
path. -/
theorem no_partial_output (E : Exch) (fuel : Nat) (symbol : String) (s : Int)
    (e : Option Int) (tf today : String) :
    ((downloadCrypto E fuel s e 3).1 = some none →
      download_and_save E fuel symbol s e tf today = some (false, none)) ∧
    (∀ ok fn df,
      download_and_save E fuel symbol s e tf today = some (ok, some (fn, df)) →
      ok = true ∧ (downloadCrypto E fuel s e 3).1 = some (some df) ∧
      fn = "trading_data/raw/" ++ mkFilename symbol tf today) := by
  constructor
  · intro h
    unfold download_and_save
    rw [h]
  · intro ok fn df h
    unfold download_and_save at h
    rcases hd : (downloadCrypto E fuel s e 3).1 with _ | o
    · rw [hd] at h
      simp at h
    · rw [hd] at h
      rcases o with _ | df'
      · simp at h
      · have h' : save_data (some df') (mkFilename symbol tf today) =
            (ok, some (fn, df)) := Option.some.inj h
        by_cases hlen : df'.length = 0
        · simp only [save_data, if_pos hlen] at h'
          simp at h'
        · simp only [save_data, if_neg hlen] at h'
          injection h' with hok hrest
          injection hrest with hrest'
          injection hrest' with hfn hdf
          subst hdf
          exact ⟨hok.symm, rfl, hfn.symm⟩

/-- Witness for C7: an all-failing source writes nothing; a one-candle source
writes exactly its assembled series at the derived path. -/
theorem no_partial_output_witness :
    download_and_save failE 4 "BTC/USDT" 0 none "4h" "20240101" =
      some (false, none) ∧
    (true = true ∧
      (downloadCrypto oneShortE 4 0 none 3).1 = some (some [cand 100]) ∧
      "trading_data/raw/" ++ mkFilename "BTC/USDT" "4h" "20240101" =
        "trading_data/raw/" ++ mkFilename "BTC/USDT" "4h" "20240101") := by
  constructor
  · exact (no_partial_output failE 4 "BTC/USDT" 0 none "4h" "20240101").1 (by decide)
  · refine (no_partial_output oneShortE 4 "BTC/USDT" 0 none "4h" "20240101").2
      true ("trading_data/raw/" ++ mkFilename "BTC/USDT" "4h" "20240101") [cand 100] ?_
    have hdwr : downloadWithRetry oneShortE 4 0 none 0 =
        (some (.success (sortByTs [cand 100])), [.fetch 0 0], 1) :=
      dwr_of_loop (by decide) (by decide)
    rw [sortByTs_eq_self (show SortedByTs [cand 100] by decide)] at hdwr
    have A : attemptsGo oneShortE 4 0 none 3 0 0 =
        (some (some [cand 100]), [.fetch 0 0], 1) := attempts_success_step hdwr
    have hfetch : (downloadCrypto oneShortE 4 0 none 3).1 = some (some [cand 100]) := by
      unfold downloadCrypto
      rw [A]
    unfold download_and_save
    rw [hfetch]
    simp only [save_data, if_neg (show ¬([cand 100] : List Candle).length = 0 by decide)]

/-- The result list of `batch_download` is the per-symbol map of statuses. -/
lemma batch_download_results_map (W : String → Exch) (fuel : Nat) :
    ∀ (syms : List String) (s : Int) (e : Option Int) (tf today : String)
      (rs : List DownloadResult) (fs : List OutFile),
      batch_download W fuel syms s e tf today = some (rs, fs) →
      rs = syms.map (fun sym => ⟨sym, symStatus W fuel sym s e tf today⟩) := by
  intro syms
  induction syms with
  | nil =>
    intro s e tf today rs fs h
    simp only [batch_download, Option.some.injEq, Prod.mk.injEq] at h
    rw [← h.1]
    rfl
  | cons a rest ih =>
    intro s e tf today rs fs h
    rw [batch_download] at h
    rcases hda : download_and_save (W a) fuel a s e tf today with _ | p
    · rw [hda] at h
      simp at h
    · rw [hda] at h
      rcases p with ⟨ok, file⟩
      rcases hbd : batch_download W fuel rest s e tf today with _ | q
      · rw [hbd] at h
        simp at h
      · rw [hbd] at h
        rcases q with ⟨rs', fs'⟩
        simp only [Option.some.injEq, Prod.mk.injEq] at h
        obtain ⟨hrs, hfs⟩ := h
        rw [← hrs, List.map_cons]
        have h1 : (if ok then "success" else "failed") =
            symStatus W fuel a s e tf today := by
          unfold symStatus
          rw [hda]
          cases ok
          · rfl
          · rfl
        rw [h1, ih s e tf today rs' fs' hbd]

/-- C4: `batch_download` returns exactly one result per input symbol, in input
order; each status is `success` iff that symbol's own `download_and_save`
returned `True` (fetched non-empty and persisted), `failed` otherwise, and it
depends only on that symbol's own exchange behaviour. -/
theorem batch_results_per_symbol (W : String → Exch) (fuel : Nat)
    (syms : List String) (s : Int) (e : Option Int) (tf today : String)
    (rs : List DownloadResult) (fs : List OutFile)
    (h : batch_download W fuel syms s e tf today = some (rs, fs)) :
    rs = syms.map (fun sym => ⟨sym, symStatus W fuel sym s e tf today⟩) ∧
    (∀ sym, symStatus W fuel sym s e tf today = "success" ↔
      ∃ f, download_and_save (W sym) fuel sym s e tf today = some (true, f)) := by
  refine ⟨batch_download_results_map W fuel syms s e tf today rs fs h, ?_⟩
  intro sym
  unfold symStatus
  rcases hda : download_and_save (W sym) fuel sym s e tf today with _ | p
  · constructor
    · intro habs
      have hfs : ("failed" : String) = "success" := habs
      exact absurd hfs (by decide)
    · rintro ⟨f, hf⟩
      simp at hf
  · rcases p with ⟨ok, file⟩
    cases ok
    · constructor
      · intro habs
        have hfs : ("failed" : String) = "success" := habs
        exact absurd hfs (by decide)
      · rintro ⟨f, hf⟩
        simp at hf
    · exact ⟨fun _ => ⟨file, rfl⟩, fun _ => rfl⟩

/-- Witness for C4: a two-symbol batch where BTC/USDT succeeds and FAKE/XXX
always fails gives results in order with statuses per symbol. -/
theorem batch_results_per_symbol_witness :
    ([⟨"BTC/USDT", "success"⟩, ⟨"FAKE/XXX", "failed"⟩] : List DownloadResult) =
      ["BTC/USDT", "FAKE/XXX"].map
        (fun sym => ⟨sym, symStatus worldW 4 sym 0 none "4h" "20240101"⟩) ∧
    (∀ sym, symStatus worldW 4 sym 0 none "4h" "20240101" = "success" ↔
      ∃ f, download_and_save (worldW sym) 4 sym 0 none "4h" "20240101" =
        some (true, f)) := by
  have hw1 : worldW "BTC/USDT" = oneShortE := rfl
  have hw2 : worldW "FAKE/XXX" = failE := rfl
  have hdwr : downloadWithRetry oneShortE 4 0 none 0 =
      (some (.success (sortByTs [cand 100])), [.fetch 0 0], 1) :=
    dwr_of_loop (by decide) (by decide)
  rw [sortByTs_eq_self (show SortedByTs [cand 100] by decide)] at hdwr
  have A : attemptsGo oneShortE 4 0 none 3 0 0 =
      (some (some [cand 100]), [.fetch 0 0], 1) := attempts_success_step hdwr
  have hfetch : (downloadCrypto oneShortE 4 0 none 3).1 = some (some [cand 100]) := by
    unfold downloadCrypto
    rw [A]
  have hBTC : download_and_save oneShortE 4 "BTC/USDT" 0 none "4h" "20240101" =
      some (true, some ("trading_data/raw/" ++ mkFilename "BTC/USDT" "4h" "20240101",
        [cand 100])) := by
    unfold download_and_save
    rw [hfetch]
    simp only [save_data, if_neg (show ¬([cand 100] : List Candle).length = 0 by decide)]
  have hFAKE : download_and_save failE 4 "FAKE/XXX" 0 none "4h" "20240101" =
      some (false, none) := by decide
  have hbatch : batch_download worldW 4 ["BTC/USDT", "FAKE/XXX"] 0 none "4h" "20240101" =
      some ([⟨"BTC/USDT", "success"⟩, ⟨"FAKE/XXX", "failed"⟩],
            [("trading_data/raw/" ++ mkFilename "BTC/USDT" "4h" "20240101",
              [cand 100])]) := by
    rw [batch_download, hw1, hBTC, batch_download, hw2, hFAKE, batch_download]
    rfl
  exact batch_results_per_symbol worldW 4 ["BTC/USDT", "FAKE/XXX"] 0 none "4h"
    "20240101" _ _ hbatch

/-- Against a source whose every request fails, one whole-fetch attempt makes
exactly 4 requests (3 tolerated errors, then the raise). -/
lemma loop_allfail {E : Exch} (hE : ∀ k s', E k s' = .error ()) (fuel : Nat)
    (s : Int) (e : Option Int) (acc : List Candle) (k : Nat) :
    downloadLoop E (fuel + 4) s e acc 0 k =
      (some .err,
       [.fetch k s, .sleepErr, .fetch (k + 1) s, .sleepErr, .fetch (k + 2) s,
        .sleepErr, .fetch (k + 3) s], k + 4) := by
  have e3 : downloadLoop E (fuel + 1) s e acc 3 (k + 3) =
      (some .err, [.fetch (k + 3) s], k + 4) :=
    loop_raise_step (hE (k + 3) s) (by omega)
  have e2 : downloadLoop E (fuel + 2) s e acc 2 (k + 2) =
      (some .err, [.fetch (k + 2) s, .sleepErr, .fetch (k + 3) s], k + 4) := by
    rw [show fuel + 2 = fuel + 1 + 1 from rfl,
        loop_err_step (hE (k + 2) s) (show 2 + 1 ≤ 3 by omega),
        show (2 : Nat) + 1 = 3 from rfl, show k + 2 + 1 = k + 3 from rfl, e3]
  have e1 : downloadLoop E (fuel + 3) s e acc 1 (k + 1) =
      (some .err, [.fetch (k + 1) s, .sleepErr, .fetch (k + 2) s, .sleepErr,
        .fetch (k + 3) s], k + 4) := by
    rw [show fuel + 3 = fuel + 2 + 1 from rfl,
        loop_err_step (hE (k + 1) s) (show 1 + 1 ≤ 3 by omega),
        show (1 : Nat) + 1 = 2 from rfl, show k + 1 + 1 = k + 2 from rfl, e2]
  rw [show fuel + 4 = fuel + 3 + 1 from rfl,
      loop_err_step (hE k s) (show 0 + 1 ≤ 3 by omega),
      show (0 : Nat) + 1 = 1 from rfl, e1]

/-- Against a source whose every request fails, one whole-fetch attempt
raises after exactly 4 requests and 3 in-loop backoffs. -/
lemma dwr_allfail {E : Exch} (hE : ∀ k s', E k s' = .error ()) (fuel : Nat)
    (s : Int) (e : Option Int) (k : Nat) :
    downloadWithRetry E (fuel + 4) s e k =
      (some .raised,
       [.fetch k s, .sleepErr, .fetch (k + 1) s, .sleepErr, .fetch (k + 2) s,
        .sleepErr, .fetch (k + 3) s], k + 4) :=
  dwr_raised_of_loop (loop_allfail hE fuel s e [] k)

/-- C9: against a source whose every request fails, the whole download of one
symbol performs exactly 12 requests, of which 9 are in-loop retries (each
preceded by the fixed error backoff), and then reports final failure
(`None`): the two independent bounds combine to at most 9 retry attempts. -/
theorem nine_retries_then_failure (E : Exch) (hE : ∀ k s', E k s' = .error ())
    (fuel : Nat) (s : Int) (e : Option Int) :
    (downloadCrypto E (fuel + 4) s e 3).1 = some none ∧
    (downloadCrypto E (fuel + 4) s e 3).2.countP isErrBackoff = 9 ∧
    (downloadCrypto E (fuel + 4) s e 3).2.countP isFetch = 12 := by
  have W0 := dwr_allfail hE fuel s e 0
  have W4 := dwr_allfail hE fuel s e 4
  have W8 := dwr_allfail hE fuel s e 8
  have A2 : attemptsGo E (fuel + 4) s e 1 2 8 =
      (some none,
       [.fetch 8 s, .sleepErr, .fetch 9 s, .sleepErr, .fetch 10 s, .sleepErr,
        .fetch 11 s], 12) := attempts_raised_last W8
  have A1 : attemptsGo E (fuel + 4) s e 2 1 4 =
      (some none,
       [.fetch 4 s, .sleepErr, .fetch 5 s, .sleepErr, .fetch 6 s, .sleepErr,
        .fetch 7 s] ++ .sleepOuter (2 * 5) ::
       [.fetch 8 s, .sleepErr, .fetch 9 s, .sleepErr, .fetch 10 s, .sleepErr,
        .fetch 11 s], 12) := attempts_raised_step W4 (by omega) A2
  have A0 : attemptsGo E (fuel + 4) s e 3 0 0 =
      (some none,
       [.fetch 0 s, .sleepErr, .fetch 1 s, .sleepErr, .fetch 2 s, .sleepErr,
        .fetch 3 s] ++ .sleepOuter (1 * 5) ::
       ([.fetch 4 s, .sleepErr, .fetch 5 s, .sleepErr, .fetch 6 s, .sleepErr,
         .fetch 7 s] ++ .sleepOuter (2 * 5) ::
        [.fetch 8 s, .sleepErr, .fetch 9 s, .sleepErr, .fetch 10 s, .sleepErr,
         .fetch 11 s]), 12) := attempts_raised_step W0 (by omega) A1
  refine ⟨?_, ?_, ?_⟩
  · unfold downloadCrypto
    rw [A0]
  · unfold downloadCrypto
    rw [A0]
    rfl
  · unfold downloadCrypto
    rw [A0]
    rfl

/-- Witness for C9: the concrete always-failing exchange. -/
theorem nine_retries_then_failure_witness :
    (downloadCrypto failE (0 + 4) 0 none 3).1 = some none ∧
    (downloadCrypto failE (0 + 4) 0 none 3).2.countP isErrBackoff = 9 ∧
    (downloadCrypto failE (0 + 4) 0 none 3).2.countP isFetch = 12 :=
  nine_retries_then_failure failE (fun _ _ => rfl) 0 0 none

/-- C10: the consecutive-error counter is reset to 0 by every successful
batch (first conjunct: the continuation after a full batch carries counter 0
whatever the incoming count was); consequently an attempt survives `n` periods
of (3 consecutive errors + 1 successful full batch) for any `n` — arbitrarily
many transient errors in total — and still exits the loop normally (second
conjunct). -/
theorem consecutive_counter_resets :
    (∀ (E : Exch) (fuel : Nat) (s : Int) (e : Option Int) (acc : List Candle)
        (cerr k : Nat) (b : List Candle),
      E k s = .ok b → b ≠ [] → endReached e (lastTs b + 1) = false →
      ¬b.length < batchLimit →
      (downloadLoop E (fuel + 1) s e acc cerr k).1 =
        (downloadLoop E fuel (lastTs b + 1) e (acc ++ b) 0 (k + 1)).1) ∧
    (∀ (E : Exch) (n fuel : Nat) (s : Int) (acc : List Candle) (k : Nat),
      (∀ j, j < n → ∀ i, i < 3 → ∀ s', E (k + 4 * j + i) s' = .error ()) →
      (∀ j, j < n → ∀ s', ∃ b, E (k + 4 * j + 3) s' = .ok b ∧ b ≠ [] ∧
        ¬b.length < batchLimit) →
      (∀ s', E (k + 4 * n) s' = .ok []) →
      ∃ res, (downloadLoop E (fuel + 4 * n + 1) s none acc 0 k).1 =
        some (.ok res)) := by
  constructor
  · intro E fuel s e acc cerr k b h1 h2 h3 h4
    exact loop_full_step_fst h1 h2 h3 h4
  · intro E n
    induction n with
    | zero =>
      intro fuel s acc k herr hfull hterm
      refine ⟨acc, ?_⟩
      rw [loop_empty_step (show E k s = .ok [] from hterm s)]
    | succ n ih =>
      intro fuel s acc k herr hfull hterm
      have hE0 : E k s = .error () := by
        have h := herr 0 (by omega) 0 (by omega) s
        simpa using h
      have hE1 : E (k + 1) s = .error () := by
        have h := herr 0 (by omega) 1 (by omega) s
        simpa using h
      have hE2 : E (k + 2) s = .error () := by
        have h := herr 0 (by omega) 2 (by omega) s
        simpa using h
      obtain ⟨b, hEb, hbne, hblen⟩ := hfull 0 (by omega) s
      have hEb' : E (k + 3) s = .ok b := by simpa using hEb
      have p0 : (downloadLoop E (fuel + 4 * (n + 1) + 1) s none acc 0 k).1 =
          (downloadLoop E (fuel + 4 * (n + 1)) s none acc 1 (k + 1)).1 :=
        loop_err_step_fst hE0 (by omega)
      have p1 : (downloadLoop E (fuel + 4 * (n + 1)) s none acc 1 (k + 1)).1 =
          (downloadLoop E (fuel + 4 * n + 3) s none acc 2 (k + 2)).1 :=
        loop_err_step_fst hE1 (by omega)
      have p2 : (downloadLoop E (fuel + 4 * n + 3) s none acc 2 (k + 2)).1 =
          (downloadLoop E (fuel + 4 * n + 2) s none acc 3 (k + 3)).1 :=
        loop_err_step_fst hE2 (by omega)
      have p3 : (downloadLoop E (fuel + 4 * n + 2) s none acc 3 (k + 3)).1 =
          (downloadLoop E (fuel + 4 * n + 1) (lastTs b + 1) none (acc ++ b) 0
            (k + 4)).1 :=
        loop_full_step_fst hEb' hbne rfl hblen
      have herr' : ∀ j, j < n → ∀ i, i < 3 → ∀ s',
          E (k + 4 + 4 * j + i) s' = .error () := by
        intro j hj i hi s'
        have h := herr (j + 1) (by omega) i hi s'
        rw [show k + 4 * (j + 1) + i = k + 4 + 4 * j + i from by ring] at h
        exact h
      have hfull' : ∀ j, j < n → ∀ s', ∃ b', E (k + 4 + 4 * j + 3) s' = .ok b' ∧
          b' ≠ [] ∧ ¬b'.length < batchLimit := by
        intro j hj s'
        have h := hfull (j + 1) (by omega) s'
        rw [show k + 4 * (j + 1) + 3 = k + 4 + 4 * j + 3 from by ring] at h
        exact h
      have hterm' : ∀ s', E (k + 4 + 4 * n) s' = .ok [] := by
        intro s'
        have h := hterm s'
        rw [show k + 4 * (n + 1) = k + 4 + 4 * n from by ring] at h
        exact h
      obtain ⟨res, hres⟩ := ih fuel (lastTs b + 1) (acc ++ b) (k + 4) herr' hfull' hterm'
      exact ⟨res, by rw [p0, p1, p2, p3]; exact hres⟩

/-- Witness for C10: the counter resets from 2 on a full batch, and a source
with 3 errors then a full batch then end-of-data exits the loop normally. -/
theorem consecutive_counter_resets_witness :
    ((downloadLoop bigE (0 + 1) 7 none [cand 3] 2 0).1 =
      (downloadLoop bigE 0 (lastTs (bigBatch 7) + 1) none ([cand 3] ++ bigBatch 7)
        0 (0 + 1)).1) ∧
    (∃ res, (downloadLoop cycleE (0 + 4 * 1 + 1) 0 none [] 0 0).1 =
      some (.ok res)) := by
  constructor
  · exact consecutive_counter_resets.1 bigE 0 7 none [cand 3] 2 0 (bigBatch 7) rfl
      (bigBatch_ne_nil 7) rfl (bigBatch_not_short 7)
  · refine consecutive_counter_resets.2 cycleE 1 0 0 [] 0 ?_ ?_ ?_
    · intro j hj i hi s'
      have hj0 : j = 0 := by omega
      subst hj0
      rw [show (0 : Nat) + 4 * 0 + i = i from by omega]
      unfold cycleE
      rw [if_pos hi]
    · intro j hj s'
      have hj0 : j = 0 := by omega
      subst hj0
      exact ⟨bigBatch s', rfl, bigBatch_ne_nil s', bigBatch_not_short s'⟩
    · intro s'
      rfl

end GetData
